import Mathlib

/-!
# Verification of the purge engine and record codec

Shallow embedding of two modules of the repository:

* `crates/worker/src/purgatory.rs` — the lease-based garbage collector
  ("purgatory"): an expiry schedule, a status table, `add_record` and the
  `purge` sweep.
* `crates/types/src/item.rs` — the job record codec between an `Item`
  (id + `Status`) and the metadata-store attribute map.

Machine integers (`u64` timestamps) are modelled as `Nat`; the only
arithmetic performed on them is addition of a small constant and
comparison, far below any overflow boundary.  Rust `HashMap`s are
modelled as association lists with unique keys (for the purgatory state,
where insert/remove/lookup are used) and as functions `String → Option _`
(for the attribute maps, where only `get` is used).  Fallible store calls
are modelled by an oracle `StoreAction → Bool` saying whether a given
call succeeds; the source unwraps every store result, so a failing call
is a panic, modelled by `purge` returning `none`.
-/

namespace Worker

/-- `pub type Timestamp = u64` in `purgatory.rs`. -/
abbrev Timestamp := Nat

/-- Job identifiers (`Uuid` in the source); every store call renders the id
with `to_string`, so the embedding uses the rendered string directly. -/
abbrev Uuid := String

/-- Modelled from the spec: the compilation outcome type `TaskResult`
(referenced by `purgatory.rs` via `types::item::TaskResult` but absent from
`src/`).  Per the spec's unification (§9), the terminal `Done` state is
equivalent to the `Ready`/`Failed` pair, so a task result is either a list
of artifact locators (success) or a failure reason (failure). -/
inductive TaskResult where
  | success (presignedUrls : List String)
  | failure (message : String)
deriving DecidableEq, Repr

/-- Modelled from the spec: the worker-side `Status` enum matched on by
`purgatory.rs` (`InProgress`, `Pending`, `Done(..)`), absent from the
`item.rs` present in `src/` (which carries an older variant set). -/
inductive Status where
  | InProgress
  | Pending
  | Done (result : TaskResult)
deriving DecidableEq, Repr

/-- Modelled from the spec: the blob-store directory layout produced by the
path helpers `s3_compilation_files_dir` and `s3_artifacts_dir` of
`crate::utils::lib` (absent from `src/`).  The spec describes two distinct
per-job directories — the staging/input ("compilation files") directory and
the artifact directory — so paths are modelled as an inductive type in
which the two are distinct by construction. -/
inductive S3Dir where
  | compilationFiles (id : String)
  | artifacts (id : String)
deriving DecidableEq, Repr

/-- Modelled from the spec: `s3_compilation_files_dir` of
`crate::utils::lib` — the job's staging/input directory. -/
def s3_compilation_files_dir (id : String) : S3Dir :=
  S3Dir.compilationFiles id

/-- Modelled from the spec: `s3_artifacts_dir` of `crate::utils::lib` —
the job's artifact directory. -/
def s3_artifacts_dir (id : String) : S3Dir :=
  S3Dir.artifacts id

/-- A cleanup call dispatched to one of the external stores:
`S3Client::delete_dir` on a directory, or `DynamoDBClient::delete_item` on
a metadata record. -/
inductive StoreAction where
  | deleteDir (dir : S3Dir)
  | deleteItem (id : String)
deriving DecidableEq, Repr

/-- The status table `task_status: HashMap<Uuid, Status>`, modelled as an
association list with at most one binding per key. -/
abbrev TaskTable := List (Uuid × Status)

/-- `HashMap::get` on the status table. -/
def lookupStatus : TaskTable → Uuid → Option Status
  | [], _ => none
  | (k, v) :: rest, id => if k = id then some v else lookupStatus rest id

/-- `HashMap::insert` on the status table: replaces the binding of an
existing key, otherwise adds a new binding. -/
def insertStatus : TaskTable → Uuid → Status → TaskTable
  | [], id, st => [(id, st)]
  | (k, v) :: rest, id, st =>
      if k = id then (id, st) :: rest else (k, v) :: insertStatus rest id st

/-- `HashMap::remove` on the status table. -/
def removeStatus (t : TaskTable) (id : Uuid) : TaskTable :=
  t.filter (fun e => decide (e.1 ≠ id))

/-- The shared purgatory state (`struct State` in `purgatory.rs`):
the expiry schedule `expiration_timestamps` and the status table
`task_status`. -/
structure State where
  expiration_timestamps : List (Uuid × Timestamp)
  task_status : TaskTable
deriving DecidableEq, Repr

/-- `DURATION_TO_PURGE: u64 = 60 * 5` — the fixed lease duration, in
seconds, used by `Inner::add_record`. -/
def DURATION_TO_PURGE : Timestamp := 60 * 5

/-- `Inner::add_record`: records `Status::Done(result)` for `id` in the
status table and appends `(id, now + DURATION_TO_PURGE)` to the expiry
schedule.  `now` stands for the wall-clock `timestamp()` read by the
source. -/
def add_record (s : State) (id : Uuid) (result : TaskResult)
    (now : Timestamp) : State :=
  { task_status := insertStatus s.task_status id (Status.Done result),
    expiration_timestamps :=
      s.expiration_timestamps ++ [(id, now + DURATION_TO_PURGE)] }

/-- The dispatch loop of `Inner::purge` (`purgatory.rs` lines 122–162):
walks the expiry schedule in order, breaking at the first entry with
`timestamp > now`; for each expired entry, looks the id up in the status
table (warning and continuing when absent), and dispatches per status:
nothing for `InProgress`; `delete_dir(s3_compilation_files_dir(id))`,
then — line 144 assigns `artifacts_dir` from `s3_compilation_files_dir` —
`delete_dir(s3_compilation_files_dir(id))` a second time, then
`delete_item(id)` for `Pending`; `delete_dir(s3_artifacts_dir(id))` then
`delete_item(id)` for `Done`.  Every store call is `.unwrap()`-ed in the
source, so a failing call (oracle returns `false`) panics: the loop
returns `none`.  On success it returns the dispatched calls in order. -/
def purgeLoop (table : TaskTable) (oracle : StoreAction → Bool) :
    List (Uuid × Timestamp) → Timestamp → Option (List StoreAction)
  | [], _ => some []
  | (id, ts) :: rest, now =>
    if now < ts then some []
    else
      match lookupStatus table id with
      | none => purgeLoop table oracle rest now
      | some Status.InProgress => purgeLoop table oracle rest now
      | some Status.Pending =>
          let a1 := StoreAction.deleteDir (s3_compilation_files_dir id)
          let a2 := StoreAction.deleteDir (s3_compilation_files_dir id)
          let a3 := StoreAction.deleteItem id
          if oracle a1 then
            if oracle a2 then
              if oracle a3 then
                (purgeLoop table oracle rest now).map
                  (fun acts => a1 :: a2 :: a3 :: acts)
              else none
            else none
          else none
      | some (Status.Done _) =>
          let a1 := StoreAction.deleteDir (s3_artifacts_dir id)
          let a2 := StoreAction.deleteItem id
          if oracle a1 then
            if oracle a2 then
              (purgeLoop table oracle rest now).map
                (fun acts => a1 :: a2 :: acts)
            else none
          else none

/-- The compaction pass of `Inner::purge` (`purgatory.rs` lines 164–171):
`expiration_timestamps.retain(..)` keeps exactly the entries with
`timestamp > now`, and, as a side effect of the closure, removes the id of
every dropped entry from the status table.  Returns the retained schedule
and the updated table. -/
def purgeRetain : List (Uuid × Timestamp) → TaskTable → Timestamp →
    List (Uuid × Timestamp) × TaskTable
  | [], table, _ => ([], table)
  | (id, ts) :: rest, table, now =>
    if now < ts then
      let r := purgeRetain rest table now
      ((id, ts) :: r.1, r.2)
    else
      purgeRetain rest (removeStatus table id) now

/-- `Inner::purge`: runs the dispatch loop at time `now` (the source reads
`now = timestamp()`), then — only when no store call panicked — compacts
the schedule and table.  Returns the new state and the dispatched store
calls, or `none` when a store call failed and the sweep panicked (state
unchanged, compaction never reached). -/
def purge (s : State) (now : Timestamp) (oracle : StoreAction → Bool) :
    Option (State × List StoreAction) :=
  match purgeLoop s.task_status oracle s.expiration_timestamps now with
  | none => none
  | some acts =>
      let r := purgeRetain s.expiration_timestamps s.task_status now
      some (⟨r.1, r.2⟩, acts)

end Worker

namespace Types

/-- The subset of `aws_sdk_dynamodb::types::AttributeValue` shapes the
codec in `item.rs` constructs or inspects: `S` (string), `N`
(number-as-string), `Ss` (string list), plus `Null` as a representative of
the remaining SDK shapes, rejected by all three accessors used by the
codec. -/
inductive AttributeValue where
  | S (s : String)
  | N (n : String)
  | Ss (l : List String)
  | Null (v : Bool)
deriving DecidableEq, Repr

/-- `AttributeValue::as_s`: the string payload, or an error (here `none`)
for any other shape. -/
def as_s : AttributeValue → Option String
  | AttributeValue.S s => some s
  | _ => none

/-- `AttributeValue::as_n`: the raw numeric string payload, or an error
(here `none`) for any other shape. -/
def as_n : AttributeValue → Option String
  | AttributeValue.N n => some n
  | _ => none

/-- `AttributeValue::as_ss`: the string-list payload, or an error (here
`none`) for any other shape. -/
def as_ss : AttributeValue → Option (List String)
  | AttributeValue.Ss l => some l
  | _ => none

/-- `pub type AttributeMap = HashMap<String, AttributeValue>`, modelled by
its `get` view: only lookups are performed on decoded maps. -/
abbrev AttributeMap := String → Option AttributeValue

/-- The empty map. -/
def mapEmpty : AttributeMap := fun _ => none

/-- `HashMap::insert`. -/
def mapInsert (m : AttributeMap) (k : String) (v : AttributeValue) :
    AttributeMap :=
  fun k2 => if k2 = k then some v else m k2

/-- `HashMap::extend`: every entry of the second map is inserted into the
first, overriding on key collisions. -/
def mapExtend (m1 m2 : AttributeMap) : AttributeMap :=
  fun k =>
    match m2 k with
    | some v => some v
    | none => m1 k

/-- The `Status` enum of `crates/types/src/item.rs` (an older variant set
than the one `purgatory.rs` consumes): `Pending`, `Compiling`,
`Ready { presigned_urls }`, `Failed(String)`. -/
inductive Status where
  | Pending
  | Compiling
  | Ready (presigned_urls : List String)
  | Failed (msg : String)
deriving DecidableEq, Repr

/-- `Status::attribute_name()`. -/
def Status.attribute_name : String := "Status"

/-- `impl From<&Status> for u32`: the numeric tag of each variant. -/
def statusToU32 : Status → Nat
  | Status.Pending => 0
  | Status.Compiling => 1
  | Status.Ready _ => 2
  | Status.Failed _ => 3

/-- `struct Item`: a job record, id plus status. -/
structure Item where
  id : String
  status : Status
deriving DecidableEq, Repr

/-- `Item::data_attribute_name()`. -/
def Item.data_attribute_name : String := "Data"

/-- `Item::id_attribute_name()`. -/
def Item.id_attribute_name : String := "ID"

/-- `impl From<Status> for HashMap<String, AttributeValue>`: the tag under
the `Status` attribute always; the payload under the `Data` attribute as a
string list for `Ready` and as a plain string for `Failed`. -/
def statusToMap (value : Status) : AttributeMap :=
  match value with
  | Status.Pending =>
      mapInsert mapEmpty Status.attribute_name
        (AttributeValue.N (toString (statusToU32 value)))
  | Status.Compiling =>
      mapInsert mapEmpty Status.attribute_name
        (AttributeValue.N (toString (statusToU32 value)))
  | Status.Ready presigned_urls =>
      mapInsert
        (mapInsert mapEmpty Status.attribute_name
          (AttributeValue.N (toString (statusToU32 value))))
        Item.data_attribute_name (AttributeValue.Ss presigned_urls)
  | Status.Failed val =>
      mapInsert
        (mapInsert mapEmpty Status.attribute_name
          (AttributeValue.N (toString (statusToU32 value))))
        Item.data_attribute_name (AttributeValue.S val)

/-- `impl From<Item> for AttributeMap`: a singleton map with the `ID`
attribute, extended with the status encoding. -/
def itemToMap (value : Item) : AttributeMap :=
  mapExtend
    (mapInsert mapEmpty Item.id_attribute_name (AttributeValue.S value.id))
    (statusToMap value.status)

/-- `enum ItemError`: `FormatError`, or `ParseError` wrapping the
`std::num::ParseIntError` produced by `str::parse::<u32>` (the wrapped
error detail is irrelevant to the codec and not modelled). -/
inductive ItemError where
  | FormatError
  | ParseError
deriving DecidableEq, Repr

/-- `str::parse::<u32>`: an optional leading plus sign, then one or more
ASCII digits, with the value below `2 ^ 32`; anything else is a
`ParseIntError`. -/
def parseU32 (s : String) : Option Nat :=
  let cs :=
    match s.data with
    | [] => []
    | c :: rest => if c = '+' then rest else c :: rest
  if cs = [] then none
  else if cs.all Char.isDigit then
    let v := cs.foldl (fun acc c => acc * 10 + (c.toNat - 48)) 0
    if v < 2 ^ 32 then some v else none
  else none

/-- `impl TryFrom<&AttributeMap> for Status` (`item.rs` lines 121–151):
fetch the `Status` attribute (`FormatError` when absent), read it with
`as_n` (`FormatError` when not numeric), parse the string as `u32`
(`ParseError` when unparsable), then dispatch on the tag: 0 and 1 are the
payload-free variants; 2 and 3 additionally fetch the `Data` attribute and
read it with `as_ss` resp. `as_s` (`FormatError` when absent or of the
wrong shape); any other tag is a `FormatError`. -/
def statusTryFrom (value : AttributeMap) : Except ItemError Status :=
  match value Status.attribute_name with
  | none => Except.error ItemError.FormatError
  | some av =>
    match as_n av with
    | none => Except.error ItemError.FormatError
    | some nstr =>
      match parseU32 nstr with
      | none => Except.error ItemError.ParseError
      | some 0 => Except.ok Status.Pending
      | some 1 => Except.ok Status.Compiling
      | some 2 =>
        match value Item.data_attribute_name with
        | none => Except.error ItemError.FormatError
        | some d =>
          match as_ss d with
          | none => Except.error ItemError.FormatError
          | some l => Except.ok (Status.Ready l)
      | some 3 =>
        match value Item.data_attribute_name with
        | none => Except.error ItemError.FormatError
        | some d =>
          match as_s d with
          | none => Except.error ItemError.FormatError
          | some msg => Except.ok (Status.Failed msg)
      | some _ => Except.error ItemError.FormatError

/-- `impl TryFrom<AttributeMap> for Item` (`item.rs` lines 153–165): fetch
the `ID` attribute and read it with `as_s` (`FormatError` when absent or
not a string), then decode the status from the same map. -/
def itemTryFrom (value : AttributeMap) : Except ItemError Item :=
  match value Item.id_attribute_name with
  | none => Except.error ItemError.FormatError
  | some av =>
    match as_s av with
    | none => Except.error ItemError.FormatError
    | some id =>
      match statusTryFrom value with
      | Except.error e => Except.error e
      | Except.ok st => Except.ok { id := id, status := st }

end Types

namespace Worker

theorem takeWhile_le_eq_filter_of_sorted (now : Timestamp)
    (l : List (Uuid × Timestamp))
    (h : List.Pairwise (fun a b => a.2 ≤ b.2) l) :
    l.takeWhile (fun e => decide (e.2 ≤ now))
      = l.filter (fun e => decide (e.2 ≤ now)) := by
  induction l with
  | nil => rfl
  | cons a rest ih =>
    rw [List.pairwise_cons] at h
    obtain ⟨ha, hrest⟩ := h
    by_cases hts : a.2 ≤ now
    · simp [List.takeWhile_cons, List.filter_cons, hts, ih hrest]
    · have hall : ∀ b ∈ rest, ¬ (b.2 ≤ now) := by
        intro b hb hble
        exact hts (le_trans (ha b hb) hble)
      simp only [List.takeWhile_cons, List.filter_cons, hts, decide_False,
        Bool.false_eq_true, if_false]
      exact (List.filter_eq_nil_iff.mpr (by simpa using hall)).symm

theorem lookupStatus_insertStatus_self (t : TaskTable) (id : Uuid)
    (st : Status) : lookupStatus (insertStatus t id st) id = some st := by
  induction t with
  | nil => simp [insertStatus, lookupStatus]
  | cons e rest ih =>
    obtain ⟨k, v⟩ := e
    by_cases hk : k = id
    · simp [insertStatus, lookupStatus, hk]
    · simp [insertStatus, lookupStatus, hk, ih]

theorem lookupStatus_insertStatus_other (t : TaskTable) (id id2 : Uuid)
    (st : Status) (h : id2 ≠ id) :
    lookupStatus (insertStatus t id st) id2 = lookupStatus t id2 := by
  have h2 : ¬ id = id2 := fun hc => h hc.symm
  induction t with
  | nil => simp [insertStatus, lookupStatus, h2]
  | cons e rest ih =>
    obtain ⟨k, v⟩ := e
    by_cases hk : k = id
    · simp [insertStatus, lookupStatus, hk, h2]
    · by_cases hk2 : k = id2
      · simp [insertStatus, lookupStatus, hk, hk2, h, h2]
      · simp [insertStatus, lookupStatus, hk, hk2, ih]



theorem lookupStatus_removeStatus_self (t : TaskTable) (id : Uuid) :
    lookupStatus (removeStatus t id) id = none := by
  induction t with
  | nil => rfl
  | cons e rest ih =>
    obtain ⟨k, v⟩ := e
    by_cases hk : k = id
    · simpa [removeStatus, List.filter_cons, hk] using ih
    · simpa [removeStatus, List.filter_cons, lookupStatus, hk] using ih

theorem lookupStatus_removeStatus_other (t : TaskTable) (id id2 : Uuid)
    (h : id ≠ id2) :
    lookupStatus (removeStatus t id2) id = lookupStatus t id := by
  have h2 : ¬ id2 = id := fun hc => h hc.symm
  induction t with
  | nil => rfl
  | cons e rest ih =>
    obtain ⟨k, v⟩ := e
    by_cases hk : k = id2
    · have hki : ¬ k = id := by
        intro hcontra
        exact h (hcontra ▸ hk)
      simp [removeStatus, List.filter_cons, lookupStatus, hk, hki, h2] at ih ⊢
      exact ih
    · by_cases hki : k = id
      · simp [removeStatus, List.filter_cons, lookupStatus, hk, hki, h, h2]
      · simp [removeStatus, List.filter_cons, lookupStatus, hk, hki] at ih ⊢
        exact ih

theorem lookupStatus_removeStatus_none (t : TaskTable) (id id2 : Uuid)
    (h : lookupStatus t id = none) :
    lookupStatus (removeStatus t id2) id = none := by
  by_cases hid : id = id2
  · exact hid ▸ lookupStatus_removeStatus_self t id2
  · rw [lookupStatus_removeStatus_other t id id2 hid]
    exact h

theorem purgeRetain_fst (l : List (Uuid × Timestamp)) :
    ∀ (table : TaskTable) (now : Timestamp),
      (purgeRetain l table now).1 = l.filter fun e => decide (now < e.2) := by
  induction l with
  | nil => intro table now; rfl
  | cons e rest ih =>
    intro table now
    obtain ⟨id, ts⟩ := e
    by_cases h : now < ts
    · simp [purgeRetain, h, List.filter_cons, ih]
    · simp [purgeRetain, h, List.filter_cons, ih]

theorem purgeRetain_snd_none (l : List (Uuid × Timestamp)) :
    ∀ (table : TaskTable) (now : Timestamp) (id : Uuid),
      lookupStatus table id = none →
      lookupStatus (purgeRetain l table now).2 id = none := by
  induction l with
  | nil => intro table now id h; exact h
  | cons e rest ih =>
    intro table now id h
    obtain ⟨id2, ts2⟩ := e
    by_cases hts : now < ts2
    · simpa [purgeRetain, hts] using ih table now id h
    · simpa [purgeRetain, hts] using
        ih (removeStatus table id2) now id
          (lookupStatus_removeStatus_none table id id2 h)

theorem purgeRetain_snd_expired (l : List (Uuid × Timestamp)) :
    ∀ (table : TaskTable) (now : Timestamp) (id : Uuid) (ts : Timestamp),
      (id, ts) ∈ l → ts ≤ now →
      lookupStatus (purgeRetain l table now).2 id = none := by
  induction l with
  | nil => intro table now id ts hmem; exact absurd hmem (List.not_mem_nil _)
  | cons e rest ih =>
    intro table now id ts hmem hts
    obtain ⟨id2, ts2⟩ := e
    rcases List.mem_cons.mp hmem with heq | hrest
    · obtain ⟨h1, h2⟩ := Prod.mk.injEq .. ▸ heq
      subst h1; subst h2
      have hnot : ¬ now < ts := not_lt.mpr hts
      simpa [purgeRetain, hnot] using
        purgeRetain_snd_none rest (removeStatus table id) now id
          (lookupStatus_removeStatus_self table id)
    · by_cases h2 : now < ts2
      · simpa [purgeRetain, h2] using ih table now id ts hrest hts
      · simpa [purgeRetain, h2] using
          ih (removeStatus table id2) now id ts hrest hts

theorem purgeRetain_snd_future (l : List (Uuid × Timestamp)) :
    ∀ (table : TaskTable) (now : Timestamp) (id : Uuid),
      (∀ ts2, (id, ts2) ∈ l → now < ts2) →
      lookupStatus (purgeRetain l table now).2 id = lookupStatus table id := by
  induction l with
  | nil => intro table now id _; rfl
  | cons e rest ih =>
    intro table now id h
    obtain ⟨id2, ts2⟩ := e
    by_cases hts : now < ts2
    · have hrest : ∀ ts3, (id, ts3) ∈ rest → now < ts3 := by
        intro ts3 hmem
        exact h ts3 (List.mem_cons_of_mem _ hmem)
      simpa [purgeRetain, hts] using ih table now id hrest
    · have hne : id ≠ id2 := by
        intro hcontra
        exact hts (h ts2 (hcontra ▸ List.mem_cons_self _ _))
      have hrest : ∀ ts3, (id, ts3) ∈ rest → now < ts3 := by
        intro ts3 hmem
        exact h ts3 (List.mem_cons_of_mem _ hmem)
      calc lookupStatus (purgeRetain ((id2, ts2) :: rest) table now).2 id
          = lookupStatus (purgeRetain rest (removeStatus table id2) now).2 id := by
            simp [purgeRetain, hts]
        _ = lookupStatus (removeStatus table id2) id := ih _ now id hrest
        _ = lookupStatus table id :=
            lookupStatus_removeStatus_other table id id2 hne

theorem purgeRetain_all_future (l : List (Uuid × Timestamp)) :
    ∀ (table : TaskTable) (now : Timestamp),
      (∀ e ∈ l, now < e.2) → purgeRetain l table now = (l, table) := by
  induction l with
  | nil => intro table now _; rfl
  | cons e rest ih =>
    intro table now h
    obtain ⟨id, ts⟩ := e
    have hts : now < ts := h (id, ts) (List.mem_cons_self _ _)
    have hrest : ∀ e ∈ rest, now < e.2 := by
      intro e hmem
      exact h e (List.mem_cons_of_mem _ hmem)
    simp [purgeRetain, hts, ih table now hrest]

theorem purgeLoop_all_future (table : TaskTable) (oracle : StoreAction → Bool)
    (l : List (Uuid × Timestamp)) (now : Timestamp)
    (h : ∀ e ∈ l, now < e.2) :
    purgeLoop table oracle l now = some [] := by
  cases l with
  | nil => rfl
  | cons e rest =>
    obtain ⟨id, ts⟩ := e
    have hts : now < ts := h (id, ts) (List.mem_cons_self _ _)
    simp [purgeLoop, hts]

theorem purge_some_components (s : State) (now : Timestamp)
    (oracle : StoreAction → Bool) (s2 : State) (acts : List StoreAction)
    (h : purge s now oracle = some (s2, acts)) :
    s2.expiration_timestamps =
      s.expiration_timestamps.filter (fun e => decide (now < e.2))
    ∧ s2.task_status =
      (purgeRetain s.expiration_timestamps s.task_status now).2 := by
  unfold purge at h
  cases hl : purgeLoop s.task_status oracle s.expiration_timestamps now with
  | none => rw [hl] at h; exact absurd h (by simp)
  | some acts0 =>
    rw [hl] at h
    simp only [Option.some.injEq, Prod.mk.injEq] at h
    obtain ⟨hstate, -⟩ := h
    rw [← hstate]
    exact ⟨purgeRetain_fst s.expiration_timestamps s.task_status now, rfl⟩

theorem purgeLoop_takeWhile (table : TaskTable) (oracle : StoreAction → Bool)
    (l : List (Uuid × Timestamp)) :
    ∀ now : Timestamp,
      purgeLoop table oracle l now =
      purgeLoop table oracle (l.takeWhile fun e => decide (e.2 ≤ now)) now := by
  induction l with
  | nil => intro now; rfl
  | cons e rest ih =>
    intro now
    obtain ⟨id, ts⟩ := e
    by_cases hts : now < ts
    · have hnow : ¬ ts ≤ now := not_le.mpr hts
      simp [purgeLoop, hts, List.takeWhile_cons, hnow]
    · have hnow : ts ≤ now := not_lt.mp hts
      cases hstat : lookupStatus table id with
      | none => simpa [purgeLoop, hts, List.takeWhile_cons, hnow, hstat] using ih now
      | some st =>
        cases st with
        | InProgress =>
            simpa [purgeLoop, hts, List.takeWhile_cons, hnow, hstat] using ih now
        | Pending =>
            simp [purgeLoop, hts, List.takeWhile_cons, hnow, hstat, ih now]
        | Done r =>
            simp [purgeLoop, hts, List.takeWhile_cons, hnow, hstat, ih now]

end Worker

theorem nat_toString_0 : toString (0 : Nat) = "0" := rfl

theorem nat_toString_1 : toString (1 : Nat) = "1" := rfl

theorem nat_toString_2 : toString (2 : Nat) = "2" := rfl

theorem nat_toString_3 : toString (3 : Nat) = "3" := rfl

theorem bind_as_s_some {o : Option Types.AttributeValue} {s : String}
    (h : o.bind Types.as_s = some s) : o = some (Types.AttributeValue.S s) := by
  cases o with
  | none => exact absurd h (by simp)
  | some av =>
    cases av with
    | S s2 => simp [Types.as_s] at h; rw [h]
    | N n => simp [Types.as_s] at h
    | Ss l => simp [Types.as_s] at h
    | Null b => simp [Types.as_s] at h

theorem bind_as_n_some {o : Option Types.AttributeValue} {s : String}
    (h : o.bind Types.as_n = some s) : o = some (Types.AttributeValue.N s) := by
  cases o with
  | none => exact absurd h (by simp)
  | some av =>
    cases av with
    | S s2 => simp [Types.as_n] at h
    | N n => simp [Types.as_n] at h; rw [h]
    | Ss l => simp [Types.as_n] at h
    | Null b => simp [Types.as_n] at h

theorem bind_as_ss_some {o : Option Types.AttributeValue} {l : List String}
    (h : o.bind Types.as_ss = some l) : o = some (Types.AttributeValue.Ss l) := by
  cases o with
  | none => exact absurd h (by simp)
  | some av =>
    cases av with
    | S s2 => simp [Types.as_ss] at h
    | N n => simp [Types.as_ss] at h
    | Ss l2 => simp [Types.as_ss] at h; rw [h]
    | Null b => simp [Types.as_ss] at h

/-- C1: at a state holding one expired entry per status variant, the
dispatched cleanup diverges from the claim for `Pending`: the source
(`purgatory.rs` line 144) builds the "artifacts" path with
`s3_compilation_files_dir` — contradicting its own `Remove artifacts`
comment and the `artifacts_dir` variable name — so a `Pending` entry gets
two deletes of the *same* staging directory and no artifact-directory
delete, not deletes of two distinct directories.  `InProgress` dispatches
nothing, and the two `Done` (terminal `Ready`/`Failed`) entries each get
an artifact-directory delete and a record delete, as claimed. -/
theorem purge_pending_deletes_same_dir_twice :
    Worker.purge
      { expiration_timestamps := [("i", 5), ("p", 5), ("r", 5), ("f", 5)],
        task_status :=
          [("i", Worker.Status.InProgress),
           ("p", Worker.Status.Pending),
           ("r", Worker.Status.Done (Worker.TaskResult.success ["u"])),
           ("f", Worker.Status.Done (Worker.TaskResult.failure "err"))] }
      5 (fun _ => true) =
    some (⟨[], []⟩,
      [Worker.StoreAction.deleteDir (Worker.S3Dir.compilationFiles "p"),
       Worker.StoreAction.deleteDir (Worker.S3Dir.compilationFiles "p"),
       Worker.StoreAction.deleteItem "p",
       Worker.StoreAction.deleteDir (Worker.S3Dir.artifacts "r"),
       Worker.StoreAction.deleteItem "r",
       Worker.StoreAction.deleteDir (Worker.S3Dir.artifacts "f"),
       Worker.StoreAction.deleteItem "f"])
    ∧ Worker.s3_compilation_files_dir "p" ≠ Worker.s3_artifacts_dir "p" := by
  decide

/-- C2 counterexample: a sweep at time 10 over a schedule holding an
expired `InProgress` entry `a` and an expired entry `b` absent from the
status table retires both — the compaction pass (`purgatory.rs` lines
164–171) drops every expired entry and removes its id from the status
table unconditionally — refuting the claim that `a` remains in both
structures and that `b` remains in the schedule. -/
theorem purge_drops_expired_inprogress_and_orphan :
    Worker.purge
      { expiration_timestamps := [("a", 10), ("b", 10)],
        task_status := [("a", Worker.Status.InProgress)] }
      10 (fun _ => true) = some (⟨[], []⟩, []) := by
  decide

/-- C2 amended: a sweep that completes (no store call panicked) removes
every expired entry from the expiry schedule and its id from the status
table unconditionally — regardless of the entry's status (including
`InProgress`) and of whether the entry's id was present in the status
table at all. -/
theorem purge_compacts_expired_unconditionally
    (s : Worker.State) (now : Worker.Timestamp)
    (oracle : Worker.StoreAction → Bool) (s2 : Worker.State)
    (acts : List Worker.StoreAction)
    (h : Worker.purge s now oracle = some (s2, acts))
    (id : Worker.Uuid) (ts : Worker.Timestamp)
    (hmem : (id, ts) ∈ s.expiration_timestamps) (hts : ts ≤ now) :
    (id, ts) ∉ s2.expiration_timestamps
    ∧ Worker.lookupStatus s2.task_status id = none := by
  obtain ⟨hfst, hsnd⟩ := Worker.purge_some_components s now oracle s2 acts h
  constructor
  · intro hcontra
    rw [hfst] at hcontra
    have := (List.mem_filter.mp hcontra).2
    simp at this
    exact absurd hts (not_le.mpr this)
  · rw [hsnd]
    exact Worker.purgeRetain_snd_expired s.expiration_timestamps
      s.task_status now id ts hmem hts

/-- C2 amended, witness: the sweep of the counterexample state retires
the expired `InProgress` entry. -/
theorem purge_compacts_expired_unconditionally_witness :
    ¬ (("a", 10) ∈
        (Worker.State.mk ([] : List (Worker.Uuid × Worker.Timestamp)) []).expiration_timestamps)
    ∧ Worker.lookupStatus
        (Worker.State.mk ([] : List (Worker.Uuid × Worker.Timestamp)) []).task_status "a" = none :=
  purge_compacts_expired_unconditionally
    { expiration_timestamps := [("a", 10), ("b", 10)],
      task_status := [("a", Worker.Status.InProgress)] }
    10 (fun _ => true) ⟨[], []⟩ [] (by decide) "a" 10 (by decide) (by decide)

/-- C3: the source unwraps every store-client result (`purgatory.rs`
lines 141, 145, 148–151, 155–159, each marked `// TODO: fix`), so a
failing blob delete for the expired `Pending` entry `p` panics the whole
sweep: `purge` aborts (returns `none`), the remaining expired `Done`
entry `r` is never processed and nothing is retired — instead of logging
the failure and continuing as the claim states.  With every store call
succeeding, the same sweep completes. -/
theorem purge_panics_on_store_error :
    Worker.purge
      { expiration_timestamps := [("p", 5), ("r", 5)],
        task_status :=
          [("p", Worker.Status.Pending),
           ("r", Worker.Status.Done (Worker.TaskResult.success []))] }
      5 (fun a =>
          decide (a ≠ Worker.StoreAction.deleteDir
            (Worker.S3Dir.compilationFiles "p"))) = none
    ∧ (Worker.purge
        { expiration_timestamps := [("p", 5), ("r", 5)],
          task_status :=
            [("p", Worker.Status.Pending),
             ("r", Worker.Status.Done (Worker.TaskResult.success []))] }
        5 (fun _ => true)).isSome = true := by
  decide

/-- C4 counterexample: with the schedule in a non-sorted order
`[(a, 20), (b, 10)]` and `now = 10`, the dispatch loop (`purgatory.rs`
lines 122–125) `break`s at the first non-expired entry `a`, so the
expired entry `b` is never inspected for dispatch (no store call is
issued at all) — yet the compaction pass still removes `b` from the
schedule and from the status table, refuting "inspects and dispatches
cleanup for exactly the entries with `expiry <= now`" for arbitrary
orders. -/
theorem purge_skips_expired_after_future_entry :
    Worker.purge
      { expiration_timestamps := [("a", 20), ("b", 10)],
        task_status :=
          [("a", Worker.Status.Pending), ("b", Worker.Status.Pending)] }
      10 (fun _ => true)
    = some (⟨[("a", 20)], [("a", Worker.Status.Pending)]⟩, []) := by
  decide

/-- C4 amended: the sweep dispatches cleanup for exactly the maximal
prefix of the schedule consisting of entries with `expiry <= now` — which
coincides with all expired entries when the schedule is sorted in
non-decreasing expiry order, the source's own invariant — while the
compaction removes exactly the entries with `expiry <= now`, wherever
they sit; an entry with `expiry > now` is never removed, and the status
binding of an id all of whose schedule entries are non-expired is
untouched. -/
theorem purge_dispatch_prefix_and_exact_compaction
    (s : Worker.State) (now : Worker.Timestamp)
    (oracle : Worker.StoreAction → Bool) :
    Worker.purgeLoop s.task_status oracle s.expiration_timestamps now
      = Worker.purgeLoop s.task_status oracle
          (s.expiration_timestamps.takeWhile fun e => decide (e.2 ≤ now)) now
    ∧ (List.Pairwise (fun a b => a.2 ≤ b.2) s.expiration_timestamps →
        s.expiration_timestamps.takeWhile (fun e => decide (e.2 ≤ now))
          = s.expiration_timestamps.filter (fun e => decide (e.2 ≤ now)))
    ∧ ∀ s2 acts, Worker.purge s now oracle = some (s2, acts) →
        s2.expiration_timestamps
          = s.expiration_timestamps.filter (fun e => decide (now < e.2))
        ∧ ∀ id, (∀ ts2, (id, ts2) ∈ s.expiration_timestamps → now < ts2) →
            Worker.lookupStatus s2.task_status id
              = Worker.lookupStatus s.task_status id := by
  refine ⟨Worker.purgeLoop_takeWhile s.task_status oracle
    s.expiration_timestamps now, ?_, ?_⟩
  · intro hsorted
    exact Worker.takeWhile_le_eq_filter_of_sorted now
      s.expiration_timestamps hsorted
  · intro s2 acts h
    obtain ⟨hfst, hsnd⟩ := Worker.purge_some_components s now oracle s2 acts h
    refine ⟨hfst, ?_⟩
    intro id hfut
    rw [hsnd]
    exact Worker.purgeRetain_snd_future s.expiration_timestamps
      s.task_status now id hfut

/-- C4 amended, witness: in the counterexample state the retained
schedule is exactly the non-expired entries and the non-expired id keeps
its status binding. -/
theorem purge_dispatch_prefix_and_exact_compaction_witness :
    (Worker.State.mk [(("a" : Worker.Uuid), (20 : Worker.Timestamp))]
        [("a", Worker.Status.Pending)]).expiration_timestamps
      = List.filter (fun e => decide ((10 : Worker.Timestamp) < e.2))
          [(("a" : Worker.Uuid), (20 : Worker.Timestamp)), ("b", 10)]
    ∧ Worker.lookupStatus
        (Worker.State.mk [(("a" : Worker.Uuid), (20 : Worker.Timestamp))]
          [("a", Worker.Status.Pending)]).task_status "a"
      = Worker.lookupStatus
          [("a", Worker.Status.Pending), ("b", Worker.Status.Pending)] "a" := by
  have h := (purge_dispatch_prefix_and_exact_compaction
    { expiration_timestamps := [("a", 20), ("b", 10)],
      task_status :=
        [("a", Worker.Status.Pending), ("b", Worker.Status.Pending)] }
    10 (fun _ => true)).2.2
    ⟨[("a", 20)], [("a", Worker.Status.Pending)]⟩ [] (by decide)
  refine ⟨h.1, h.2 "a" ?_⟩
  intro ts2 hmem
  simp only [List.mem_cons, List.not_mem_nil, or_false, Prod.mk.injEq] at hmem
  rcases hmem with ⟨-, rfl⟩ | ⟨hab, -⟩
  · decide
  · exact absurd hab (by decide)

/-- C5: the record codec round-trips: decoding the attribute map produced
by encoding any record succeeds and returns the record unchanged, for
every status variant — including `Ready` with an empty artifact list,
which is encoded as a present `Data` attribute holding the empty string
list, and `Failed` with an empty reason string. -/
theorem item_roundtrip :
    (∀ (id : String) (st : Types.Status),
        Types.itemTryFrom (Types.itemToMap { id := id, status := st })
          = Except.ok { id := id, status := st })
    ∧ ∀ id : String,
        Types.itemToMap { id := id, status := Types.Status.Ready [] }
            Types.Item.data_attribute_name
          = some (Types.AttributeValue.Ss []) := by
  constructor
  · intro id st
    cases st <;>
      simp only [Types.itemToMap, Types.statusToMap, Types.statusToU32,
        nat_toString_0, nat_toString_1, nat_toString_2, nat_toString_3] <;>
      rfl
  · intro id
    rfl

/-- C7: `add_record` at time `t` records the terminal status carried by
the call (`Status::Done(result)`, the only status the source's entry
point accepts) for the given id, leaves every other status binding
unchanged, appends the single schedule entry `(id, t + 300)` — the lease
duration `DURATION_TO_PURGE` being the fixed constant `60 * 5 = 300`
seconds — and changes nothing else in either structure. -/
theorem add_record_correct (s : Worker.State) (id : Worker.Uuid)
    (r : Worker.TaskResult) (t : Worker.Timestamp) :
    Worker.lookupStatus (Worker.add_record s id r t).task_status id
      = some (Worker.Status.Done r)
    ∧ (∀ id2, id2 ≠ id →
        Worker.lookupStatus (Worker.add_record s id r t).task_status id2
          = Worker.lookupStatus s.task_status id2)
    ∧ (Worker.add_record s id r t).expiration_timestamps
        = s.expiration_timestamps ++ [(id, t + 300)]
    ∧ Worker.DURATION_TO_PURGE = 300 := by
  refine ⟨?_, ?_, ?_, rfl⟩
  · exact Worker.lookupStatus_insertStatus_self s.task_status id
      (Worker.Status.Done r)
  · intro id2 h2
    exact Worker.lookupStatus_insertStatus_other s.task_status id id2
      (Worker.Status.Done r) h2
  · rfl

/-- C7 witness: registering job `j` at time 7 in a state holding an
unrelated binding for `k` leaves `k`'s binding unchanged. -/
theorem add_record_correct_witness :
    Worker.lookupStatus
      (Worker.add_record
        { expiration_timestamps := [(("k" : Worker.Uuid), (9 : Worker.Timestamp))],
          task_status := [("k", Worker.Status.InProgress)] }
        "j" (Worker.TaskResult.success []) 7).task_status "k"
      = Worker.lookupStatus [("k", Worker.Status.InProgress)] "k" :=
  (add_record_correct
    { expiration_timestamps := [("k", 9)],
      task_status := [("k", Worker.Status.InProgress)] }
    "j" (Worker.TaskResult.success []) 7).2.1 "k" (by decide)

/-- C8: after a sweep at `now` in which every dispatched store call
succeeded, a second sweep at the same `now` is a no-op for any behavior
of the stores: it dispatches no store call, does not panic, and returns
the state unchanged. -/
theorem purge_idempotent (s : Worker.State) (now : Worker.Timestamp)
    (oracle : Worker.StoreAction → Bool) (s2 : Worker.State)
    (acts : List Worker.StoreAction)
    (h : Worker.purge s now oracle = some (s2, acts))
    (oracle2 : Worker.StoreAction → Bool) :
    Worker.purge s2 now oracle2 = some (s2, []) := by
  obtain ⟨hfst, -⟩ := Worker.purge_some_components s now oracle s2 acts h
  have hfut : ∀ e ∈ s2.expiration_timestamps, now < e.2 := by
    intro e hmem
    rw [hfst] at hmem
    have := (List.mem_filter.mp hmem).2
    simpa using this
  obtain ⟨sched2, table2⟩ := s2
  have hloop := Worker.purgeLoop_all_future table2 oracle2 sched2 now hfut
  have hretain := Worker.purgeRetain_all_future sched2 table2 now hfut
  simp [Worker.purge, hloop, hretain]

/-- C8 witness: a concrete first sweep retires the only expired entry;
the second sweep at the same time is a no-op even with every store call
failing. -/
theorem purge_idempotent_witness :
    Worker.purge ⟨[], []⟩ 10 (fun _ => false) = some (⟨[], []⟩, []) :=
  purge_idempotent
    { expiration_timestamps := [("a", 10)],
      task_status := [("a", Worker.Status.InProgress)] }
    10 (fun _ => true) ⟨[], []⟩ [] (by decide) (fun _ => false)

/-- C6 counterexample: on a map whose `ID` attribute is the string `x`
and whose `Status` attribute is the numeric attribute `N "abc"`, decoding
fails — but with `ItemError::ParseError` (the wrapped
`std::num::ParseIntError` from `str::parse::<u32>`, `item.rs` line 128),
not with the `FormatError` the claim requires for every malformed map. -/
theorem decode_unparsable_status_is_parse_error :
    Types.itemTryFrom
      (Types.mapInsert
        (Types.mapInsert Types.mapEmpty
          Types.Item.id_attribute_name (Types.AttributeValue.S "x"))
        Types.Status.attribute_name (Types.AttributeValue.N "abc"))
      = Except.error Types.ItemError.ParseError
    ∧ Types.ItemError.ParseError ≠ Types.ItemError.FormatError :=
  ⟨rfl, by decide⟩

/-- C6 amended: decoding fails exactly on malformed maps, with
`FormatError` in every malformed case — `ID` absent or not a string;
`Status` absent or not a numeric attribute; a parsed tag outside 0–3
(unknown tags are rejected, never defaulted); `Data` absent or of the
wrong shape for tags 2 and 3 — except that a numeric `Status` attribute
whose string does not parse as a `u32` fails with `ParseError` (the
wrapped integer-parse error), not `FormatError`; in every other case
decoding succeeds with the decoded record. -/
theorem decode_error_characterization (m : Types.AttributeMap) :
    ((m Types.Item.id_attribute_name).bind Types.as_s = none →
      Types.itemTryFrom m = Except.error Types.ItemError.FormatError)
    ∧ ∀ id, (m Types.Item.id_attribute_name).bind Types.as_s = some id →
      ((m Types.Status.attribute_name).bind Types.as_n = none →
        Types.itemTryFrom m = Except.error Types.ItemError.FormatError)
      ∧ ∀ nstr, (m Types.Status.attribute_name).bind Types.as_n = some nstr →
        (Types.parseU32 nstr = none →
          Types.itemTryFrom m = Except.error Types.ItemError.ParseError)
        ∧ ∀ n, Types.parseU32 nstr = some n →
          (n = 0 → Types.itemTryFrom m
              = Except.ok { id := id, status := Types.Status.Pending })
          ∧ (n = 1 → Types.itemTryFrom m
              = Except.ok { id := id, status := Types.Status.Compiling })
          ∧ (4 ≤ n → Types.itemTryFrom m
              = Except.error Types.ItemError.FormatError)
          ∧ (n = 2 →
              ((m Types.Item.data_attribute_name).bind Types.as_ss = none →
                Types.itemTryFrom m = Except.error Types.ItemError.FormatError)
              ∧ ∀ l, (m Types.Item.data_attribute_name).bind Types.as_ss = some l →
                  Types.itemTryFrom m
                    = Except.ok { id := id, status := Types.Status.Ready l })
          ∧ (n = 3 →
              ((m Types.Item.data_attribute_name).bind Types.as_s = none →
                Types.itemTryFrom m = Except.error Types.ItemError.FormatError)
              ∧ ∀ msg, (m Types.Item.data_attribute_name).bind Types.as_s = some msg →
                  Types.itemTryFrom m
                    = Except.ok { id := id, status := Types.Status.Failed msg }) := by
  constructor
  · intro hid
    cases h1 : m Types.Item.id_attribute_name with
    | none => simp [Types.itemTryFrom, h1]
    | some av =>
      rw [h1] at hid
      simp only [Option.some_bind] at hid
      simp [Types.itemTryFrom, h1, hid]
  · intro id hid
    have h1 : m Types.Item.id_attribute_name = some (Types.AttributeValue.S id) :=
      bind_as_s_some hid
    constructor
    · intro hst
      cases h2 : m Types.Status.attribute_name with
      | none => simp [Types.itemTryFrom, Types.statusTryFrom, Types.as_s, h1, h2]
      | some av =>
        rw [h2] at hst
        simp only [Option.some_bind] at hst
        simp [Types.itemTryFrom, Types.statusTryFrom, Types.as_s, h1, h2, hst]
    · intro nstr hst
      have h2 : m Types.Status.attribute_name = some (Types.AttributeValue.N nstr) :=
        bind_as_n_some hst
      constructor
      · intro hp
        simp [Types.itemTryFrom, Types.statusTryFrom, Types.as_s, Types.as_n, h1, h2, hp]
      · intro n hp
        refine ⟨?_, ?_, ?_, ?_, ?_⟩
        · rintro rfl
          simp [Types.itemTryFrom, Types.statusTryFrom, Types.as_s, Types.as_n, h1, h2, hp]
        · rintro rfl
          simp [Types.itemTryFrom, Types.statusTryFrom, Types.as_s, Types.as_n, h1, h2, hp]
        · intro h4
          obtain ⟨k, rfl⟩ : ∃ k, n = k + 4 := ⟨n - 4, by omega⟩
          simp [Types.itemTryFrom, Types.statusTryFrom, Types.as_s, Types.as_n, h1, h2, hp]
        · rintro rfl
          constructor
          · intro hdata
            cases h3 : m Types.Item.data_attribute_name with
            | none =>
              simp [Types.itemTryFrom, Types.statusTryFrom, Types.as_s, Types.as_n,
                h1, h2, hp, h3]
            | some d =>
              rw [h3] at hdata
              simp only [Option.some_bind] at hdata
              simp [Types.itemTryFrom, Types.statusTryFrom, Types.as_s, Types.as_n,
                h1, h2, hp, h3, hdata]
          · intro l hdata
            have h3 : m Types.Item.data_attribute_name
                = some (Types.AttributeValue.Ss l) := bind_as_ss_some hdata
            simp [Types.itemTryFrom, Types.statusTryFrom, Types.as_s, Types.as_n,
              Types.as_ss, h1, h2, hp, h3]
        · rintro rfl
          constructor
          · intro hdata
            cases h3 : m Types.Item.data_attribute_name with
            | none =>
              simp [Types.itemTryFrom, Types.statusTryFrom, Types.as_s, Types.as_n,
                h1, h2, hp, h3]
            | some d =>
              rw [h3] at hdata
              simp only [Option.some_bind] at hdata
              cases d with
              | S s2 => simp [Types.as_s] at hdata
              | N n2 =>
                simp [Types.itemTryFrom, Types.statusTryFrom, Types.as_s,
                  Types.as_n, h1, h2, hp, h3]
              | Ss l2 =>
                simp [Types.itemTryFrom, Types.statusTryFrom, Types.as_s,
                  Types.as_n, h1, h2, hp, h3]
              | Null b2 =>
                simp [Types.itemTryFrom, Types.statusTryFrom, Types.as_s,
                  Types.as_n, h1, h2, hp, h3]
          · intro msg hdata
            have h3 : m Types.Item.data_attribute_name
                = some (Types.AttributeValue.S msg) := bind_as_s_some hdata
            simp [Types.itemTryFrom, Types.statusTryFrom, Types.as_s, Types.as_n,
              h1, h2, hp, h3]

/-- C6 amended, witness: a map with a string `ID` and Status tag `"4"`
(an unknown tag) is rejected with a `FormatError`, not defaulted. -/
theorem decode_error_characterization_witness :
    Types.itemTryFrom
      (Types.mapInsert
        (Types.mapInsert Types.mapEmpty
          Types.Item.id_attribute_name (Types.AttributeValue.S "x"))
        Types.Status.attribute_name (Types.AttributeValue.N "4"))
      = Except.error Types.ItemError.FormatError :=
  ((((decode_error_characterization
    (Types.mapInsert
      (Types.mapInsert Types.mapEmpty
        Types.Item.id_attribute_name (Types.AttributeValue.S "x"))
      Types.Status.attribute_name (Types.AttributeValue.N "4"))).2
    "x" rfl).2 "4" rfl).2 4 rfl).2.2.1 (by decide)

/-- C9: decoding is lenient outside the attributes it validates: when the
`ID` attribute is a string and the `Status` attribute is the numeric
string `"0"` or `"1"`, decoding succeeds with `Pending` resp. `Compiling`
whatever else the map contains (the `Data` attribute is never inspected
for those tags), and the decode result depends only on the map's values
at the `ID`, `Status` and `Data` attribute names — every other attribute
is ignored for every tag. -/
theorem decode_lenient_outside_validated_attributes :
    (∀ (m : Types.AttributeMap) (id : String),
      m Types.Item.id_attribute_name = some (Types.AttributeValue.S id) →
        (m Types.Status.attribute_name = some (Types.AttributeValue.N "0") →
          Types.itemTryFrom m
            = Except.ok { id := id, status := Types.Status.Pending })
        ∧ (m Types.Status.attribute_name = some (Types.AttributeValue.N "1") →
          Types.itemTryFrom m
            = Except.ok { id := id, status := Types.Status.Compiling }))
    ∧ ∀ m1 m2 : Types.AttributeMap,
        m1 Types.Item.id_attribute_name = m2 Types.Item.id_attribute_name →
        m1 Types.Status.attribute_name = m2 Types.Status.attribute_name →
        m1 Types.Item.data_attribute_name = m2 Types.Item.data_attribute_name →
        Types.itemTryFrom m1 = Types.itemTryFrom m2 := by
  constructor
  · intro m id hid
    constructor <;> intro hst <;>
      · unfold Types.itemTryFrom Types.statusTryFrom
        rw [hid, hst]
        rfl
  · intro m1 m2 h1 h2 h3
    unfold Types.itemTryFrom Types.statusTryFrom
    rw [h1, h2, h3]

/-- C9 witness: a map with a string `ID`, Status tag `"0"` and a `Data`
attribute of a shape that would be ill-formed for the payload-carrying
tags decodes to `Pending` — the extra attribute is never inspected. -/
theorem decode_lenient_outside_validated_attributes_witness :
    Types.itemTryFrom
      (Types.mapInsert
        (Types.mapInsert
          (Types.mapInsert Types.mapEmpty
            Types.Item.id_attribute_name (Types.AttributeValue.S "x"))
          Types.Status.attribute_name (Types.AttributeValue.N "0"))
        Types.Item.data_attribute_name (Types.AttributeValue.Null true))
      = Except.ok { id := "x", status := Types.Status.Pending } :=
  ((decode_lenient_outside_validated_attributes.1
    (Types.mapInsert
      (Types.mapInsert
        (Types.mapInsert Types.mapEmpty
          Types.Item.id_attribute_name (Types.AttributeValue.S "x"))
        Types.Status.attribute_name (Types.AttributeValue.N "0"))
      Types.Item.data_attribute_name (Types.AttributeValue.Null true))
    "x" rfl).1 rfl)

/-- C10: whenever `purge` at `now` completes (every dispatched store call
succeeded), no schedule entry with `expiry <= now` remains, and the id of
every expired entry of the input schedule is absent from the resulting
status table — uniformly, regardless of the entry's status and of whether
any cleanup was dispatched for it. -/
theorem purge_postcondition_no_expired_remains (s : Worker.State)
    (now : Worker.Timestamp) (oracle : Worker.StoreAction → Bool)
    (s2 : Worker.State) (acts : List Worker.StoreAction)
    (h : Worker.purge s now oracle = some (s2, acts)) :
    (∀ id ts, (id, ts) ∈ s2.expiration_timestamps → now < ts)
    ∧ ∀ id ts, (id, ts) ∈ s.expiration_timestamps → ts ≤ now →
        Worker.lookupStatus s2.task_status id = none := by
  obtain ⟨hfst, hsnd⟩ := Worker.purge_some_components s now oracle s2 acts h
  constructor
  · intro id ts hmem
    rw [hfst] at hmem
    have := (List.mem_filter.mp hmem).2
    simpa using this
  · intro id ts hmem hts
    rw [hsnd]
    exact Worker.purgeRetain_snd_expired s.expiration_timestamps
      s.task_status now id ts hmem hts

/-- C10 witness: after the sweep of a state holding one expired
`InProgress` entry and one expired orphan entry, the expired id `a` is
absent from the resulting status table. -/
theorem purge_postcondition_no_expired_remains_witness :
    Worker.lookupStatus
      (Worker.State.mk ([] : List (Worker.Uuid × Worker.Timestamp)) []).task_status "a"
      = none :=
  (purge_postcondition_no_expired_remains
    { expiration_timestamps := [("a", 10), ("b", 10)],
      task_status := [("a", Worker.Status.InProgress)] }
    10 (fun _ => true) ⟨[], []⟩ [] (by decide)).2 "a" 10 (by decide) (by decide)
